import Mathlib

/-!
Verification development for `mongodb-slow-log-analyzer.py`.

The script reads a MongoDB log line by line, JSON-decodes each line,
extracts slow-query events, accumulates per-fingerprint statistics in one
flat Python dict whose keys are built by string concatenation
(`"durationMillis_" + hash`, `"count_" + hash`, ...), bulk-inserts one row
per observed hash into a fresh SQLite table, and prints a filtered, sorted,
truncated report.

The embedding below mirrors the source:
  * `Value` covers exactly the Python values the script can store in the
    flat `result` dict (ints, floats of `x / y` modelled as rationals,
    strings, `None`, and the plan-summary lists whose elements are only
    ever strings or `None`).
  * `PyDict` is the flat dict; only keyed access is ever performed on it
    (iteration happens over the separate `hashes` set), so an association
    list with get/set is a faithful model.
  * Machine integers: Python ints are unbounded, so `Int` is exact.
  * Fallible steps return `Except String`, the error string naming the
    Python exception that the corresponding operation raises.
-/

/-- Python values storable in the flat `result` dict of the script. -/
inductive Value where
  | vNone
  | vInt (n : Int)
  | vRat (q : ℚ)
  | vStr (s : String)
  | vList (l : List (Option String))
deriving DecidableEq

/-- The flat `result` dict (line 40 of the source). Only keyed gets/sets
are ever performed on it, so an association list models it faithfully;
the no-duplicate-keys property is maintained by `pset`. -/
abbrev PyDict := List (String × Value)

/-- `result.get(k)` / `k in result`. -/
def pget (d : PyDict) (k : String) : Option Value :=
  match List.find? (fun p => p.1 == k) d with
  | some p => some p.2
  | none => none

/-- `result[k] = v` (insert or overwrite). -/
def pset (d : PyDict) (k : String) (v : Value) : PyDict :=
  (k, v) :: List.filter (fun p => !(p.1 == k)) d

/-- The `attr` sub-dict of a decoded log record, projected onto the keys
the script reads. `none` = key absent. The script only ever reads these
five keys of `attr`; values are modelled with their expected types (a
well-typed projection: ill-typed attribute values are outside this
embedding, except for the absences that the claims are about). -/
structure Attr where
  queryHash : Option String := none
  durationMillis : Option Int := none
  ns : Option String := none
  planSummary : Option String := none
  command : Option String := none
deriving DecidableEq

/-- A decoded (truthy, i.e. non-empty) JSON object, projected onto the
fields the script reads: `msg` (absent ↦ `none`) and `attr`
(absent ↦ `none`; `data.get("attr", {})` then yields the empty dict). -/
structure Record where
  msg : Option String := none
  attr : Option Attr := none
deriving DecidableEq

/-- The dict returned by `extract_query_data` (lines 19-25). -/
structure QueryData where
  hash : String
  durationMillis : Option Int
  ns : Option String
  planSummary : Option String
  command : Option String
deriving DecidableEq

/-- `extract_query_data` (lines 15-26).  `data["msg"]` raises `KeyError`
when the key is absent (the `msg = data.get("msg")` on line 16 is dead:
its value is never used).  `"queryHash" in attr` is a key-presence test,
so a present-but-empty hash still classifies.  `attr = data.get("attr", {})`
makes an absent `attr` behave as the empty dict. -/
def extract_query_data (data : Record) : Except String (Option QueryData) :=
  let attr := data.attr.getD {}
  match data.msg with
  | none => .error "KeyError: msg"
  | some m =>
    match attr.queryHash with
    | some h =>
      if m = "Slow query" then
        .ok (some { hash := h, durationMillis := attr.durationMillis,
                    ns := attr.ns, planSummary := attr.planSummary,
                    command := attr.command })
      else .ok none
    | none => .ok none

/-- `result.get(k, 0)` read as an int; `none` result = the stored value is
not an int, in which case the `+` on line 30/31 raises `TypeError`. -/
def asIntD (v : Option Value) (dflt : Int) : Option Int :=
  match v with
  | none => some dflt
  | some (.vInt n) => some n
  | some _ => none

/-- `result.setdefault(k, [])` read as a list; `none` = the stored value
is not a list, in which case `.append` on line 33 raises. -/
def asListD (v : Option Value) : Option (List (Option String)) :=
  match v with
  | none => some []
  | some (.vList l) => some l
  | some _ => none

/-- A Python `ns`/`planSummary`/`command` attribute value as stored in the
dict: `None` or the string. -/
def optStrVal (o : Option String) : Value :=
  match o with
  | none => .vNone
  | some s => .vStr s

/-- Python truthiness of an optional string: `None` and `""` are falsy. -/
def pyTruthyStr (o : Option String) : Bool :=
  match o with
  | none => false
  | some s => !(s == "")

/-- The mutation body of `create_or_update_result` (lines 30-36), given
the values the reads on lines 30, 31 and 33 produced: the duration and
count keys are overwritten with the new totals, `setdefault` writes `ns`
only when the key is absent (even a stored `None` counts as set), the
event's plan summary is appended, the average is recomputed from the two
values just stored at the duration/count keys (Python int truthiness
makes the guard `result["durationMillis_" + h]` on line 34 mean
`total ≠ 0`), and `command` is set only when the event's command is
truthy (non-`None`, non-empty) and the key is absent (lines 35-36). -/
def applyEvent (result : PyDict) (query_data : QueryData)
    (qDur prevDur prevCount : Int) (prevPlans : List (Option String)) : PyDict :=
  let hash_key := query_data.hash
  let total := prevDur + qDur
  let cnt := prevCount + 1
  let result := pset result ("durationMillis_" ++ hash_key) (.vInt total)
  let result := pset result ("count_" ++ hash_key) (.vInt cnt)
  let result := if (pget result ("ns_" ++ hash_key)).isSome then result
                else pset result ("ns_" ++ hash_key) (optStrVal query_data.ns)
  let result := pset result ("planSummary_" ++ hash_key)
                (.vList (prevPlans ++ [query_data.planSummary]))
  let result := pset result ("avgDurationMillis_" ++ hash_key)
                (.vRat (if total ≠ 0 ∧ 0 < cnt then (total : ℚ) / (cnt : ℚ) else 0))
  let result := if pyTruthyStr query_data.command ∧ (pget result ("command_" ++ hash_key)).isNone
                then pset result ("command_" ++ hash_key) (.vStr (query_data.command.getD ""))
                else result
  result

/-- `create_or_update_result` (lines 28-36).

Line 30 `result.get("durationMillis_" + h, 0) + query_data["durationMillis"]`
raises `TypeError` when the event's duration is absent (`None`): the whole
update is then skipped before any key is written.  On success the body
`applyEvent` runs.

On each error branch the model returns the dict unchanged; the error
branches exercised anywhere in this development raise on line 30, before
the first mutation, exactly as Python does. -/
def create_or_update_result (result : PyDict) (query_data : QueryData) :
    Except String PyDict :=
  match query_data.durationMillis,
        asIntD (pget result ("durationMillis_" ++ query_data.hash)) 0,
        asIntD (pget result ("count_" ++ query_data.hash)) 0,
        asListD (pget result ("planSummary_" ++ query_data.hash)) with
  | some qDur, some prevDur, some prevCount, some prevPlans =>
    .ok (applyEvent result query_data qDur prevDur prevCount prevPlans)
  | none, _, _, _ => .error "TypeError: unsupported operand types for +: int and NoneType"
  | _, _, _, _ => .error "TypeError"

/-- The `try/except` around `create_or_update_result` in the ingestion
loop (lines 53-56): on an exception the dict is left as it was and
processing continues. -/
def tryUpdate (result : PyDict) (q : QueryData) : PyDict :=
  match create_or_update_result result q with
  | .ok r => r
  | .error _ => result

/-- The local state of the ingestion loop in `process_slow_log`
(lines 39-56).  `query_data` models the Python local of that name:
`none` = not yet bound (so that reading it raises `UnboundLocalError`),
`some v` = bound to `v` (`v = none` meaning Python `None`). -/
structure LoopState where
  hashes : List String := []
  result : PyDict := []
  query_data : Option (Option QueryData) := none
deriving DecidableEq

/-- One iteration of the `for line in data` loop (lines 42-56).

A line is modelled by its decode result: `none` = `parse_log_line`
returned `None` (`JSONDecodeError`) or the line decoded to a falsy value
(such as the empty object `{}`), which the `if parsed_data:` test skips
identically; `some rec` = the line decoded to a truthy object.

When `extract_query_data` raises, the exception is caught (line 47-48)
and `query_data` keeps its previous binding: if it was never bound, the
`if query_data:` test on line 49 raises `UnboundLocalError`, which no
handler inside `process_slow_log` catches; if it was bound to the
previous event, that event is processed again.  The fingerprint is added
to `hashes` (lines 50-52) before the update is attempted. -/
def process_line (st : LoopState) (line : Option Record) : Except String LoopState :=
  match line with
  | none => .ok st
  | some parsed_data =>
    let qd : Option (Option QueryData) :=
      match extract_query_data parsed_data with
      | .ok v => some v
      | .error _ => st.query_data
    match qd with
    | none => .error "UnboundLocalError: query_data referenced before assignment"
    | some none => .ok { st with query_data := qd }
    | some (some q) =>
      let hashes := if q.hash ∈ st.hashes then st.hashes else st.hashes ++ [q.hash]
      .ok { hashes := hashes, result := tryUpdate st.result q, query_data := qd }

/-- The whole ingestion loop of `process_slow_log` (lines 39-56), over the
already-decoded input lines.  An uncaught exception (`.error`) propagates
out of `process_slow_log` into the generic handler in `main` (line 135),
which ends the run: nothing is persisted and no report is produced.
The `hashes` set is modelled as an insertion-ordered deduplicated list
(set iteration order is arbitrary in Python; no claim depends on it). -/
def processLines (lines : List (Option Record)) : Except String LoopState :=
  List.foldlM process_line {} lines

/-- Number of lines that decode, classify and extract successfully into a
Query Event (the count the spec's conservation property refers to). -/
def successfulEvents (lines : List (Option Record)) : Nat :=
  List.countP (fun line =>
    match line with
    | none => false
    | some r =>
      match extract_query_data r with
      | .ok (some _) => true
      | _ => false) lines

/-- Python `repr` of a plan-summary list element (a string or `None`), as
invoked by `str(list)`: strings are wrapped in single quotes (plan
summaries contain no quote or backslash characters, so no escaping
arises), `None` prints as `None`. -/
def pyReprOptStr (o : Option String) : String :=
  match o with
  | none => "None"
  | some s => "\x27" ++ s ++ "\x27"

/-- Python `str` of a plan-summary list, as computed on line 80:
`str(['COLLSCAN', None])` = `"[\x27COLLSCAN\x27, None]"`. -/
def pyStrList (l : List (Option String)) : String :=
  "[" ++ String.intercalate ", " (l.map pyReprOptStr) ++ "]"

/-- One row of the SQLite `results` table (lines 64-81).  `ns` is `none`
when the stored Python value was `None` (SQL `NULL`). -/
structure Row where
  hash : String
  durationMillis : Int
  count : Int
  avgDurationMillis : ℚ
  ns : Option String
  planSummary : String
  command : String
deriving DecidableEq

/-- The row inserted for one hash (lines 76-81): each column is
`result.get(prefix + hash, default)`, with `str()` applied to the
plan-summary list and the command, and `''` as default for `ns`,
`planSummary` and `command`, `0` for the numeric columns. -/
def mkRow (result : PyDict) (hash_key : String) : Row :=
  { hash := hash_key
    durationMillis :=
      match pget result ("durationMillis_" ++ hash_key) with
      | some (.vInt n) => n | _ => 0
    count :=
      match pget result ("count_" ++ hash_key) with
      | some (.vInt n) => n | _ => 0
    avgDurationMillis :=
      match pget result ("avgDurationMillis_" ++ hash_key) with
      | some (.vRat q) => q | _ => 0
    ns :=
      match pget result ("ns_" ++ hash_key) with
      | some (.vStr s) => some s | some .vNone => none | _ => some ""
    planSummary :=
      match pget result ("planSummary_" ++ hash_key) with
      | some (.vList l) => pyStrList l | _ => ""
    command :=
      match pget result ("command_" ++ hash_key) with
      | some (.vStr s) => s | _ => "" }

/-- The contents of the freshly rebuilt `results` table after the insert
loop over `hashes` (lines 75-81). -/
def storeRows (st : LoopState) : List Row :=
  st.hashes.map (mkRow st.result)

/-- Sum of the `count` column over the persisted rows. -/
def occurrenceSum (st : LoopState) : Int :=
  List.foldl (fun a r => a + r.count) 0 (storeRows st)

/-- The `--sort` choices (line 119). -/
inductive SortKey where
  | avgDurationMillis
  | durationMillis
  | count
deriving DecidableEq

/-- The numeric value the chosen `ORDER BY` column has on a row. -/
def sortKeyVal (s : SortKey) (r : Row) : ℚ :=
  match s with
  | .avgDurationMillis => r.avgDurationMillis
  | .durationMillis => (r.durationMillis : ℚ)
  | .count => (r.count : ℚ)

/-- Substring test on character lists: `pat` occurs contiguously in the
list. -/
def isInfixChars (pat : List Char) : List Char → Bool
  | [] => pat.isEmpty
  | c :: cs => pat.isPrefixOf (c :: cs) || isInfixChars pat cs

/-- Case-sensitive "the substring occurs anywhere in the text". -/
def substringOccurs (pat s : String) : Bool :=
  isInfixChars pat.data s.data

/-- SQLite `LIKE '%pat%'` with default settings: ASCII-case-insensitive
containment (SQLite folds only the ASCII range unless
`case_sensitive_like` is enabled, which the script never does). -/
def likeContains (s pat : String) : Bool :=
  isInfixChars (pat.data.map Char.toLower) (s.data.map Char.toLower)

/-- The `WHERE` clause of the report query (lines 90-91):
`count >= {count}` plus, when `--collscan` was given (line 124),
`AND planSummary LIKE '%COLLSCAN%'`. -/
def rowPasses (count_min : Int) (collscan : Bool) (r : Row) : Bool :=
  decide (count_min ≤ r.count) && (!collscan || likeContains r.planSummary "COLLSCAN")

/-- Insert a row into a descending-sorted list (the model of
`ORDER BY {sort} DESC`; SQLite leaves the relative order of ties
unspecified, and no claim depends on it). -/
def insertDescBy (key : Row → ℚ) (r : Row) : List Row → List Row
  | [] => [r]
  | x :: xs => if key x < key r then r :: x :: xs else x :: insertDescBy key r xs

/-- Sort rows descending on the chosen key (insertion sort). -/
def sortDescBy (key : Row → ℚ) : List Row → List Row
  | [] => []
  | x :: xs => insertDescBy key x (sortDescBy key xs)

/-- `SUBSTR(s, 1, n)`: the first `n` characters. -/
def substrTrunc (s : String) (n : Nat) : String :=
  ⟨s.data.take n⟩

/-- The report `SELECT` (lines 87-95): filter by the `WHERE` clause, sort
descending on the chosen column, apply `LIMIT`, and truncate the
`planSummary` and `command` columns with `SUBSTR`.  (`WHERE` and
`ORDER BY` refer to the table columns, so they see the untruncated
values.) -/
def selectReport (rows : List Row) (limit char_limit : Nat) (count_min : Int)
    (collscan : Bool) (sort : SortKey) : List Row :=
  let filtered := rows.filter (rowPasses count_min collscan)
  let sorted := sortDescBy (sortKeyVal sort) filtered
  (sorted.take limit).map (fun r =>
    { r with planSummary := substrTrunc r.planSummary char_limit,
             command := substrTrunc r.command char_limit })

/-- `process_slow_log` end to end (lines 38-99): ingest, persist, report.
The SQLite file path and the printing are I/O glue outside the model. -/
def process_slow_log (data : List (Option Record)) (limit char_limit : Nat)
    (count : Int) (sort : SortKey) (collscan : Bool) :
    Except String (List Row) :=
  (processLines data).map (fun st => selectReport (storeRows st) limit char_limit count collscan sort)

/-- The final loop state of a run that is known to succeed (used only to
state concrete facts about concrete runs). -/
def runOk (lines : List (Option Record)) : LoopState :=
  match processLines lines with
  | .ok st => st
  | .error _ => {}

/-! ### Concrete inputs used by the refutations and witnesses -/

/-- A well-formed slow-query record: hash "A", duration 100. -/
def recA : Record :=
  { msg := some "Slow query"
    attr := some { queryHash := some "A", durationMillis := some 100,
                   ns := some "db.coll", planSummary := some "COLLSCAN",
                   command := some "find db" } }

/-- A truthy JSON object without a `"msg"` key (for example
`{"attr": {}}`): `data["msg"]` raises `KeyError` inside
`extract_query_data`. -/
def recNoMsg : Record :=
  { msg := none, attr := some {} }

/-- A slow-query record whose `attr` has no `durationMillis` key. -/
def recANoDur : Record :=
  { msg := some "Slow query", attr := some { queryHash := some "A" } }

/-- A slow-query record for hash "A" carrying a namespace and a duration. -/
def recAWithNs : Record :=
  { msg := some "Slow query"
    attr := some { queryHash := some "A", durationMillis := some 5,
                   ns := some "db.coll" } }

/-- A slow-query record whose `queryHash` is present but empty. -/
def recEmptyHash : Record :=
  { msg := some "Slow query", attr := some { queryHash := some "" } }

/-- The Query Event extracted from `recA`. -/
def eventA : QueryData :=
  { hash := "A", durationMillis := some 100, ns := some "db.coll",
    planSummary := some "COLLSCAN", command := some "find db" }

/-- An event with an absent duration (as extracted from `recANoDur`). -/
def eventANoDur : QueryData :=
  { hash := "A", durationMillis := none, ns := none,
    planSummary := none, command := none }

/-- An event with a duration but no command. -/
def eventASimple : QueryData :=
  { hash := "A", durationMillis := some 3, ns := none,
    planSummary := none, command := none }

/-- An event for hash "A" carrying different ns/command values. -/
def eventAOther : QueryData :=
  { hash := "A", durationMillis := some 7, ns := some "other.ns",
    planSummary := some "IXSCAN", command := some "other cmd" }

/-- Spec-side statement of the mean invariant: wherever a count entry is
stored, the matching total and mean entries are stored too, and the mean
is total/count when the count is positive and 0 otherwise. -/
def AvgConsistent (result : PyDict) : Prop :=
  ∀ f : String, ∀ cv : Value, pget result ("count_" ++ f) = some cv →
    ∃ cnt total : Int, cv = .vInt cnt ∧
      pget result ("durationMillis_" ++ f) = some (.vInt total) ∧
      pget result ("avgDurationMillis_" ++ f) =
        some (.vRat (if 0 < cnt then (total : ℚ) / (cnt : ℚ) else 0))

/-! ### Lemmas about the flat dict -/

theorem find?_filter_ne (d : PyDict) (k k' : String) (h : k' ≠ k) :
    List.find? (fun p => p.1 == k') (List.filter (fun p => !(p.1 == k)) d) =
    List.find? (fun p => p.1 == k') d := by
  induction d with
  | nil => rfl
  | cons a d ih =>
    by_cases hak : a.1 = k
    · have h1 : (a.1 == k) = true := beq_iff_eq.2 hak
      have h2 : (a.1 == k') = false := by
        refine beq_eq_false_iff_ne.2 ?_
        rw [hak]; exact fun e => h e.symm
      simp [List.filter_cons, List.find?_cons, h1, h2, ih]
    · have h1 : (a.1 == k) = false := beq_eq_false_iff_ne.2 hak
      by_cases hak' : a.1 = k'
      · have h2 : (a.1 == k') = true := beq_iff_eq.2 hak'
        simp [List.filter_cons, List.find?_cons, h1, h2]
      · have h2 : (a.1 == k') = false := beq_eq_false_iff_ne.2 hak'
        simp [List.filter_cons, List.find?_cons, h1, h2, ih]

theorem pget_pset_self (d : PyDict) (k : String) (v : Value) :
    pget (pset d k v) k = some v := by
  simp [pget, pset, List.find?_cons]

theorem pget_pset_ne (d : PyDict) (k k' : String) (v : Value) (h : k' ≠ k) :
    pget (pset d k v) k' = pget d k' := by
  have hh : (k == k') = false := beq_eq_false_iff_ne.2 fun e => h e.symm
  simp only [pget, pset, List.find?_cons, hh]
  rw [find?_filter_ne d k k' h]

theorem pget_nil (k : String) : pget [] k = none := rfl

/-! ### The concatenated keys never collide across field prefixes -/

theorem string_data_append (a b : String) : (a ++ b).data = a.data ++ b.data := rfl

theorem append_ne_of_ne_at (p₁ p₂ s₁ s₂ : String) (i : Nat)
    (h₁ : i < p₁.data.length) (h₂ : i < p₂.data.length)
    (hne : p₁.data[i]? ≠ p₂.data[i]?) : p₁ ++ s₁ ≠ p₂ ++ s₂ := by
  intro h
  apply hne
  calc p₁.data[i]? = (p₁.data ++ s₁.data)[i]? := (List.getElem?_append_left h₁).symm
    _ = (p₂.data ++ s₂.data)[i]? := by
        rw [← string_data_append, ← string_data_append, h]
    _ = p₂.data[i]? := List.getElem?_append_left h₂

theorem same_prefix_ne (p s₁ s₂ : String) (h : s₁ ≠ s₂) : p ++ s₁ ≠ p ++ s₂ := by
  intro he
  apply h
  have hd : p.data ++ s₁.data = p.data ++ s₂.data := by
    rw [← string_data_append, ← string_data_append, he]
  have hc := List.append_cancel_left hd
  cases s₁; cases s₂; exact congrArg String.mk hc

theorem kne_dur_count (a b : String) : "durationMillis_" ++ a ≠ "count_" ++ b :=
  append_ne_of_ne_at _ _ _ _ 0 (by decide) (by decide) (by decide)

theorem kne_dur_ns (a b : String) : "durationMillis_" ++ a ≠ "ns_" ++ b :=
  append_ne_of_ne_at _ _ _ _ 0 (by decide) (by decide) (by decide)

theorem kne_dur_plan (a b : String) : "durationMillis_" ++ a ≠ "planSummary_" ++ b :=
  append_ne_of_ne_at _ _ _ _ 0 (by decide) (by decide) (by decide)

theorem kne_dur_avg (a b : String) : "durationMillis_" ++ a ≠ "avgDurationMillis_" ++ b :=
  append_ne_of_ne_at _ _ _ _ 0 (by decide) (by decide) (by decide)

theorem kne_dur_cmd (a b : String) : "durationMillis_" ++ a ≠ "command_" ++ b :=
  append_ne_of_ne_at _ _ _ _ 0 (by decide) (by decide) (by decide)

theorem kne_count_ns (a b : String) : "count_" ++ a ≠ "ns_" ++ b :=
  append_ne_of_ne_at _ _ _ _ 0 (by decide) (by decide) (by decide)

theorem kne_count_plan (a b : String) : "count_" ++ a ≠ "planSummary_" ++ b :=
  append_ne_of_ne_at _ _ _ _ 0 (by decide) (by decide) (by decide)

theorem kne_count_avg (a b : String) : "count_" ++ a ≠ "avgDurationMillis_" ++ b :=
  append_ne_of_ne_at _ _ _ _ 0 (by decide) (by decide) (by decide)

theorem kne_count_cmd (a b : String) : "count_" ++ a ≠ "command_" ++ b :=
  append_ne_of_ne_at _ _ _ _ 2 (by decide) (by decide) (by decide)

theorem kne_ns_plan (a b : String) : "ns_" ++ a ≠ "planSummary_" ++ b :=
  append_ne_of_ne_at _ _ _ _ 0 (by decide) (by decide) (by decide)

theorem kne_ns_avg (a b : String) : "ns_" ++ a ≠ "avgDurationMillis_" ++ b :=
  append_ne_of_ne_at _ _ _ _ 0 (by decide) (by decide) (by decide)

theorem kne_ns_cmd (a b : String) : "ns_" ++ a ≠ "command_" ++ b :=
  append_ne_of_ne_at _ _ _ _ 0 (by decide) (by decide) (by decide)

theorem kne_plan_avg (a b : String) : "planSummary_" ++ a ≠ "avgDurationMillis_" ++ b :=
  append_ne_of_ne_at _ _ _ _ 0 (by decide) (by decide) (by decide)

theorem kne_plan_cmd (a b : String) : "planSummary_" ++ a ≠ "command_" ++ b :=
  append_ne_of_ne_at _ _ _ _ 0 (by decide) (by decide) (by decide)

theorem kne_avg_cmd (a b : String) : "avgDurationMillis_" ++ a ≠ "command_" ++ b :=
  append_ne_of_ne_at _ _ _ _ 0 (by decide) (by decide) (by decide)

/-! ### The shape of a successful update -/

theorem create_ok_shape (result : PyDict) (q : QueryData) (r' : PyDict)
    (h : create_or_update_result result q = .ok r') :
    ∃ qDur prevDur prevCount prevPlans,
      q.durationMillis = some qDur ∧
      asIntD (pget result ("durationMillis_" ++ q.hash)) 0 = some prevDur ∧
      asIntD (pget result ("count_" ++ q.hash)) 0 = some prevCount ∧
      asListD (pget result ("planSummary_" ++ q.hash)) = some prevPlans ∧
      r' = applyEvent result q qDur prevDur prevCount prevPlans := by
  cases hqd : q.durationMillis with
  | none => simp [create_or_update_result, hqd] at h
  | some qDur =>
    cases hpd : asIntD (pget result ("durationMillis_" ++ q.hash)) 0 with
    | none => simp [create_or_update_result, hqd, hpd] at h
    | some prevDur =>
      cases hpc : asIntD (pget result ("count_" ++ q.hash)) 0 with
      | none => simp [create_or_update_result, hqd, hpd, hpc] at h
      | some prevCount =>
        cases hpp : asListD (pget result ("planSummary_" ++ q.hash)) with
        | none => simp [create_or_update_result, hqd, hpd, hpc, hpp] at h
        | some prevPlans =>
          simp only [create_or_update_result, hqd, hpd, hpc, hpp, Except.ok.injEq] at h
          exact ⟨qDur, prevDur, prevCount, prevPlans, rfl, rfl, rfl, rfl, h.symm⟩

/-- If the event's duration is absent, the update raises before mutating
anything (line 30). -/
theorem create_error_of_no_duration (result : PyDict) (q : QueryData)
    (h : q.durationMillis = none) :
    create_or_update_result result q =
      .error "TypeError: unsupported operand types for +: int and NoneType" := by
  simp [create_or_update_result, h]

/-- What every key of the dict holds after a successful update body. -/
theorem applyEvent_pget (result : PyDict) (q : QueryData)
    (qDur prevDur prevCount : Int) (prevPlans : List (Option String)) (K : String) :
    pget (applyEvent result q qDur prevDur prevCount prevPlans) K =
      if K = "command_" ++ q.hash then
        (if pyTruthyStr q.command ∧ (pget result ("command_" ++ q.hash)).isNone
         then some (.vStr (q.command.getD "")) else pget result ("command_" ++ q.hash))
      else if K = "avgDurationMillis_" ++ q.hash then
        some (.vRat (if prevDur + qDur ≠ 0 ∧ 0 < prevCount + 1
                     then ((prevDur + qDur : Int) : ℚ) / ((prevCount + 1 : Int) : ℚ) else 0))
      else if K = "planSummary_" ++ q.hash then
        some (.vList (prevPlans ++ [q.planSummary]))
      else if K = "ns_" ++ q.hash then
        some ((pget result ("ns_" ++ q.hash)).getD (optStrVal q.ns))
      else if K = "count_" ++ q.hash then some (.vInt (prevCount + 1))
      else if K = "durationMillis_" ++ q.hash then some (.vInt (prevDur + qDur))
      else pget result K := by
  have hcap : ∀ (x : PyDict) (L : String), L ≠ "ns_" ++ q.hash →
      pget (if (pget x ("ns_" ++ q.hash)).isSome then x
            else pset x ("ns_" ++ q.hash) (optStrVal q.ns)) L = pget x L := by
    intro x L hL
    split
    · rfl
    · exact pget_pset_ne _ _ _ _ hL
  dsimp only [applyEvent]
  by_cases h6 : K = "command_" ++ q.hash
  · rw [if_pos h6]
    subst h6
    rw [pget_pset_ne _ _ _ _ (Ne.symm (kne_avg_cmd _ _)),
        pget_pset_ne _ _ _ _ (Ne.symm (kne_plan_cmd _ _)),
        hcap _ _ (Ne.symm (kne_ns_cmd _ _)),
        pget_pset_ne _ _ _ _ (Ne.symm (kne_count_cmd _ _)),
        pget_pset_ne _ _ _ _ (Ne.symm (kne_dur_cmd _ _))]
    by_cases hC : pyTruthyStr q.command ∧ (pget result ("command_" ++ q.hash)).isNone
    · rw [if_pos hC, if_pos hC, pget_pset_self]
    · rw [if_neg hC, if_neg hC,
          pget_pset_ne _ _ _ _ (Ne.symm (kne_avg_cmd _ _)),
          pget_pset_ne _ _ _ _ (Ne.symm (kne_plan_cmd _ _)),
          hcap _ _ (Ne.symm (kne_ns_cmd _ _)),
          pget_pset_ne _ _ _ _ (Ne.symm (kne_count_cmd _ _)),
          pget_pset_ne _ _ _ _ (Ne.symm (kne_dur_cmd _ _))]
  · rw [if_neg h6]
    have hcmd : ∀ (x : PyDict),
        pget (if pyTruthyStr q.command ∧ (pget x ("command_" ++ q.hash)).isNone
              then pset x ("command_" ++ q.hash) (.vStr (q.command.getD "")) else x) K =
        pget x K := by
      intro x
      split
      · exact pget_pset_ne _ _ _ _ h6
      · rfl
    rw [hcmd]
    by_cases h5 : K = "avgDurationMillis_" ++ q.hash
    · rw [if_pos h5]
      subst h5
      exact pget_pset_self _ _ _
    · rw [if_neg h5, pget_pset_ne _ _ _ _ h5]
      by_cases h4 : K = "planSummary_" ++ q.hash
      · rw [if_pos h4]
        subst h4
        exact pget_pset_self _ _ _
      · rw [if_neg h4, pget_pset_ne _ _ _ _ h4]
        by_cases h3 : K = "ns_" ++ q.hash
        · rw [if_pos h3]
          subst h3
          rw [pget_pset_ne _ _ _ _ (Ne.symm (kne_count_ns _ _)),
              pget_pset_ne _ _ _ _ (Ne.symm (kne_dur_ns _ _))]
          by_cases hns : (pget result ("ns_" ++ q.hash)).isSome
          · rw [if_pos hns,
                pget_pset_ne _ _ _ _ (Ne.symm (kne_count_ns _ _)),
                pget_pset_ne _ _ _ _ (Ne.symm (kne_dur_ns _ _))]
            obtain ⟨v, hv⟩ := Option.isSome_iff_exists.1 hns
            rw [hv]
            rfl
          · rw [if_neg hns, pget_pset_self,
                Option.not_isSome_iff_eq_none.1 hns]
            rfl
        · rw [if_neg h3, hcap _ _ h3]
          by_cases h2 : K = "count_" ++ q.hash
          · rw [if_pos h2]
            subst h2
            exact pget_pset_self _ _ _
          · rw [if_neg h2, pget_pset_ne _ _ _ _ h2]
            by_cases h1 : K = "durationMillis_" ++ q.hash
            · rw [if_pos h1]
              subst h1
              exact pget_pset_self _ _ _
            · rw [if_neg h1, pget_pset_ne _ _ _ _ h1]

/-! ### Single-update consequences -/

theorem tryUpdate_cases (result : PyDict) (q : QueryData) :
    create_or_update_result result q = .ok (tryUpdate result q) ∨
    tryUpdate result q = result := by
  unfold tryUpdate
  cases h : create_or_update_result result q with
  | ok r => left; rfl
  | error e => right; rfl

theorem tryUpdate_of_error (result : PyDict) (q : QueryData)
    (h : q.durationMillis = none) : tryUpdate result q = result := by
  unfold tryUpdate
  rw [create_error_of_no_duration result q h]

/-- Once the `ns_` key for a fingerprint holds a value (even a stored
`None`), no later update attempt changes it. -/
theorem ns_preserved (result : PyDict) (q : QueryData) (f : String) (v : Value)
    (h : pget result ("ns_" ++ f) = some v) :
    pget (tryUpdate result q) ("ns_" ++ f) = some v := by
  rcases tryUpdate_cases result q with hok | hsame
  · obtain ⟨qD, pD, pC, pP, _, _, _, _, heq⟩ := create_ok_shape _ _ _ hok
    rw [heq, applyEvent_pget,
        if_neg (kne_ns_cmd f q.hash), if_neg (kne_ns_avg f q.hash),
        if_neg (kne_ns_plan f q.hash)]
    by_cases hf : ("ns_" ++ f) = ("ns_" ++ q.hash)
    · rw [if_pos hf, ← hf, h]
      rfl
    · rw [if_neg hf, if_neg (Ne.symm (kne_count_ns q.hash f)),
          if_neg (Ne.symm (kne_dur_ns q.hash f))]
      exact h
  · rw [hsame]
    exact h

/-- Once the `command_` key for a fingerprint holds a value, no later
update attempt changes it. -/
theorem cmd_preserved (result : PyDict) (q : QueryData) (f : String) (v : Value)
    (h : pget result ("command_" ++ f) = some v) :
    pget (tryUpdate result q) ("command_" ++ f) = some v := by
  rcases tryUpdate_cases result q with hok | hsame
  · obtain ⟨qD, pD, pC, pP, _, _, _, _, heq⟩ := create_ok_shape _ _ _ hok
    rw [heq, applyEvent_pget]
    by_cases hf : ("command_" ++ f) = ("command_" ++ q.hash)
    · rw [if_pos hf]
      have hno : ¬ (pyTruthyStr q.command ∧ (pget result ("command_" ++ q.hash)).isNone) := by
        rintro ⟨-, hb⟩
        rw [← hf, h] at hb
        simp at hb
      rw [if_neg hno, ← hf]
      exact h
    · rw [if_neg hf, if_neg (Ne.symm (kne_avg_cmd q.hash f)),
          if_neg (Ne.symm (kne_plan_cmd q.hash f)),
          if_neg (Ne.symm (kne_ns_cmd q.hash f)),
          if_neg (Ne.symm (kne_count_cmd q.hash f)),
          if_neg (Ne.symm (kne_dur_cmd q.hash f))]
      exact h
  · rw [hsame]
    exact h

/-- A successful update whose event carries a truthy (non-`None`,
non-empty) command sets the still-unset `command_` key to it. -/
theorem cmd_first_nonempty (result : PyDict) (q : QueryData) (r' : PyDict) (c : String)
    (hok : create_or_update_result result q = .ok r')
    (hc : q.command = some c) (hne : c ≠ "")
    (hunset : pget result ("command_" ++ q.hash) = none) :
    pget r' ("command_" ++ q.hash) = some (.vStr c) := by
  obtain ⟨qD, pD, pC, pP, _, _, _, _, heq⟩ := create_ok_shape _ _ _ hok
  rw [heq, applyEvent_pget, if_pos rfl]
  have hyes : pyTruthyStr q.command ∧ (pget result ("command_" ++ q.hash)).isNone := by
    constructor
    · simp [pyTruthyStr, hc, hne]
    · rw [hunset]
      rfl
  rw [if_pos hyes, hc]
  rfl

/-- A successful update whose event carries a falsy (absent or empty)
command leaves a still-unset `command_` key unset. -/
theorem cmd_falsy_not_set (result : PyDict) (q : QueryData) (r' : PyDict)
    (hok : create_or_update_result result q = .ok r')
    (hc : pyTruthyStr q.command = false)
    (hunset : pget result ("command_" ++ q.hash) = none) :
    pget r' ("command_" ++ q.hash) = none := by
  obtain ⟨qD, pD, pC, pP, _, _, _, _, heq⟩ := create_ok_shape _ _ _ hok
  rw [heq, applyEvent_pget, if_pos rfl]
  have hno : ¬ (pyTruthyStr q.command ∧ (pget result ("command_" ++ q.hash)).isNone) := by
    rintro ⟨ha, -⟩
    rw [hc] at ha
    exact absurd ha (by simp)
  rw [if_neg hno]
  exact hunset

/-- A successful update sets a still-unset `ns_` key from the event, even
when the event's namespace is absent (`setdefault` stores the `None`). -/
theorem ns_set_on_success (result : PyDict) (q : QueryData) (r' : PyDict)
    (hok : create_or_update_result result q = .ok r')
    (hunset : pget result ("ns_" ++ q.hash) = none) :
    pget r' ("ns_" ++ q.hash) = some (optStrVal q.ns) := by
  obtain ⟨qD, pD, pC, pP, _, _, _, _, heq⟩ := create_ok_shape _ _ _ hok
  rw [heq, applyEvent_pget,
      if_neg (kne_ns_cmd q.hash q.hash), if_neg (kne_ns_avg q.hash q.hash),
      if_neg (kne_ns_plan q.hash q.hash), if_pos rfl, hunset]
  rfl

/-- A successful update keeps the mean invariant. -/
theorem avgConsistent_update (result : PyDict) (q : QueryData) (r' : PyDict)
    (hok : create_or_update_result result q = .ok r')
    (hinv : AvgConsistent result) : AvgConsistent r' := by
  obtain ⟨qD, pD, pC, pP, hqd, hpd, hpc, hpp, heq⟩ := create_ok_shape _ _ _ hok
  intro f cv hcv
  by_cases hf : f = q.hash
  · subst hf
    rw [heq, applyEvent_pget,
        if_neg (kne_count_cmd q.hash q.hash), if_neg (kne_count_avg q.hash q.hash),
        if_neg (kne_count_plan q.hash q.hash), if_neg (kne_count_ns q.hash q.hash),
        if_pos rfl] at hcv
    refine ⟨pC + 1, pD + qD, ?_, ?_, ?_⟩
    · exact (Option.some.inj hcv).symm
    · rw [heq, applyEvent_pget,
          if_neg (kne_dur_cmd q.hash q.hash), if_neg (kne_dur_avg q.hash q.hash),
          if_neg (kne_dur_plan q.hash q.hash), if_neg (kne_dur_ns q.hash q.hash),
          if_neg (kne_dur_count q.hash q.hash), if_pos rfl]
    · rw [heq, applyEvent_pget, if_neg (kne_avg_cmd q.hash q.hash), if_pos rfl]
      by_cases ht : (pD + qD : Int) = 0
      · simp [ht]
      · simp [ht]
  · have hne6 : ("count_" ++ f) ≠ ("count_" ++ q.hash) := same_prefix_ne _ _ _ hf
    rw [heq, applyEvent_pget,
        if_neg (kne_count_cmd f q.hash), if_neg (kne_count_avg f q.hash),
        if_neg (kne_count_plan f q.hash), if_neg (kne_count_ns f q.hash),
        if_neg hne6, if_neg (Ne.symm (kne_dur_count q.hash f))] at hcv
    obtain ⟨cnt, total, hcv', hdur, havg⟩ := hinv f cv hcv
    refine ⟨cnt, total, hcv', ?_, ?_⟩
    · rw [heq, applyEvent_pget,
          if_neg (kne_dur_cmd f q.hash), if_neg (kne_dur_avg f q.hash),
          if_neg (kne_dur_plan f q.hash), if_neg (kne_dur_ns f q.hash),
          if_neg (kne_dur_count f q.hash),
          if_neg (same_prefix_ne "durationMillis_" f q.hash hf)]
      exact hdur
    · rw [heq, applyEvent_pget,
          if_neg (kne_avg_cmd f q.hash),
          if_neg (same_prefix_ne "avgDurationMillis_" f q.hash hf),
          if_neg (Ne.symm (kne_plan_avg q.hash f)),
          if_neg (Ne.symm (kne_ns_avg q.hash f)),
          if_neg (Ne.symm (kne_count_avg q.hash f)),
          if_neg (Ne.symm (kne_dur_avg q.hash f))]
      exact havg

/-! ### Loop-level lemmas -/

theorem except_bind_ok {α β : Type} (a : α) (f : α → Except String β) :
    (Except.ok a >>= f) = f a := rfl

theorem except_bind_error {α β : Type} (e : String) (f : α → Except String β) :
    ((Except.error e : Except String α) >>= f) = .error e := rfl

/-- Any successful loop iteration either leaves the dict unchanged or
applies `create_or_update_result` for some event. -/
theorem process_line_result (st : LoopState) (line : Option Record) (st' : LoopState)
    (h : process_line st line = .ok st') :
    st'.result = st.result ∨
    ∃ q, create_or_update_result st.result q = .ok st'.result := by
  cases line with
  | none =>
    simp only [process_line] at h
    rw [← Except.ok.inj h]
    left
    rfl
  | some rec =>
    simp only [process_line] at h
    cases hex : extract_query_data rec with
    | ok v =>
      rw [hex] at h
      cases v with
      | none =>
        rw [← Except.ok.inj h]
        left
        rfl
      | some q =>
        rw [← Except.ok.inj h]
        rcases tryUpdate_cases st.result q with hok | hsame
        · right
          exact ⟨q, hok⟩
        · left
          exact hsame
    | error e =>
      rw [hex] at h
      cases hqd : st.query_data with
      | none => rw [hqd] at h; exact absurd h (by simp)
      | some v =>
        rw [hqd] at h
        cases v with
        | none =>
          rw [← Except.ok.inj h]
          left
          rfl
        | some q =>
          rw [← Except.ok.inj h]
          rcases tryUpdate_cases st.result q with hok | hsame
          · right
            exact ⟨q, hok⟩
          · left
            exact hsame

/-- Invariant preservation along the ingestion loop: any property of the
flat dict preserved by every successful update holds at the end of every
successful run from any start state satisfying it. -/
theorem processLines_inv (P : PyDict → Prop)
    (hstep : ∀ result q r', create_or_update_result result q = .ok r' → P result → P r') :
    ∀ (lines : List (Option Record)) (init st : LoopState),
      List.foldlM process_line init lines = .ok st → P init.result → P st.result := by
  intro lines
  induction lines with
  | nil =>
    intro init st h hP
    have : init = st := by simpa [List.foldlM, pure, Except.pure] using h
    rw [← this]
    exact hP
  | cons l ls ih =>
    intro init st h hP
    rw [List.foldlM_cons] at h
    cases hl : process_line init l with
    | error e =>
      rw [hl, except_bind_error] at h
      exact absurd h (by simp)
    | ok st1 =>
      rw [hl, except_bind_ok] at h
      rcases process_line_result _ _ _ hl with heq | ⟨q, hq⟩
      · exact ih st1 st h (heq ▸ hP)
      · exact ih st1 st h (hstep _ _ _ hq hP)

/-! ### Report-selector lemmas -/

theorem mem_insertDescBy (key : Row → ℚ) (r a : Row) (l : List Row) :
    a ∈ insertDescBy key r l ↔ a = r ∨ a ∈ l := by
  induction l with
  | nil => simp [insertDescBy]
  | cons x xs ih =>
    simp only [insertDescBy]
    split
    · simp [List.mem_cons]
    · simp only [List.mem_cons, ih]
      tauto

theorem pairwise_insertDescBy (key : Row → ℚ) (r : Row) (l : List Row)
    (h : l.Pairwise (fun a b => key b ≤ key a)) :
    (insertDescBy key r l).Pairwise (fun a b => key b ≤ key a) := by
  induction l with
  | nil => simp [insertDescBy]
  | cons x xs ih =>
    rw [List.pairwise_cons] at h
    obtain ⟨hx, hxs⟩ := h
    simp only [insertDescBy]
    split
    · rename_i hlt
      refine List.pairwise_cons.2 ⟨?_, List.pairwise_cons.2 ⟨hx, hxs⟩⟩
      intro y hy
      rcases List.mem_cons.1 hy with rfl | hy'
      · exact le_of_lt hlt
      · exact le_trans (hx y hy') (le_of_lt hlt)
    · rename_i hnlt
      refine List.pairwise_cons.2 ⟨?_, ih hxs⟩
      intro y hy
      rcases (mem_insertDescBy key r y xs).1 hy with rfl | hy'
      · exact le_of_not_lt hnlt
      · exact hx y hy'

theorem pairwise_sortDescBy (key : Row → ℚ) (l : List Row) :
    (sortDescBy key l).Pairwise (fun a b => key b ≤ key a) := by
  induction l with
  | nil => simp [sortDescBy]
  | cons x xs ih => exact pairwise_insertDescBy key x _ ih

theorem mem_sortDescBy (key : Row → ℚ) (l : List Row) (a : Row) :
    a ∈ sortDescBy key l ↔ a ∈ l := by
  induction l with
  | nil => simp [sortDescBy]
  | cons x xs ih =>
    simp only [sortDescBy, mem_insertDescBy, ih, List.mem_cons]

/-- Truncating the two text columns does not change any sort key. -/
theorem sortKeyVal_trunc (sort : SortKey) (c : Nat) (r : Row) :
    sortKeyVal sort
      { r with planSummary := substrTrunc r.planSummary c,
               command := substrTrunc r.command c } = sortKeyVal sort r := by
  cases sort <;> rfl

/-- Every report row descends from a stored row that passed the WHERE
clause and carries the same count. -/
theorem selectReport_mem (rows : List Row) (limit char_limit : Nat) (count_min : Int)
    (collscan : Bool) (sort : SortKey) (r : Row)
    (hr : r ∈ selectReport rows limit char_limit count_min collscan sort) :
    ∃ r₀, r₀ ∈ rows ∧ rowPasses count_min collscan r₀ = true ∧ r.count = r₀.count := by
  simp only [selectReport] at hr
  obtain ⟨r₀, hr₀, heq⟩ := List.mem_map.1 hr
  have h1 : r₀ ∈ sortDescBy (sortKeyVal sort) (rows.filter (rowPasses count_min collscan)) :=
    List.take_subset _ _ hr₀
  have h2 := (mem_sortDescBy _ _ _).1 h1
  refine ⟨r₀, (List.mem_filter.1 h2).1, (List.mem_filter.1 h2).2, ?_⟩
  rw [← heq]

/-! ### Claims -/

/-- C1: refuted on the code.  After the caught extraction failure on the
second line (`recNoMsg`, a decoded object without a `msg` key), the loop
re-reads the stale `query_data` local, which still holds the first line's
event, and aggregates it a second time: one successfully
classified-and-extracted Query Event, but the occurrence counts persisted
sum to 2.  The update is therefore not applied exactly once per
successfully extracted event, and an event is double-counted. -/
theorem c1_stale_event_double_counted :
    successfulEvents [some recA, some recNoMsg] = 1 ∧
    (processLines [some recA, some recNoMsg]).toOption =
      some (runOk [some recA, some recNoMsg]) ∧
    occurrenceSum (runOk [some recA, some recNoMsg]) = 2 := by
  refine ⟨by decide, rfl, by decide⟩

/-- C2: refuted on the code.  For an event whose `durationMillis` is
absent, line 30 computes `0 + None` and raises `TypeError` before any key
is written: the caught exception skips the whole update, so the
occurrence count is not incremented and no key for the fingerprint is
created (rather than adding 0 to the total and counting the event). -/
theorem c2_absent_duration_skips_whole_update :
    create_or_update_result [] eventANoDur =
      .error "TypeError: unsupported operand types for +: int and NoneType" ∧
    tryUpdate [] eventANoDur = [] ∧
    pget (tryUpdate [] eventANoDur) ("count_" ++ "A") = none := by
  exact ⟨rfl, rfl, rfl⟩

/-- C3: refuted on the code.  When the very first decoded line raises
inside `extract_query_data` (here: `KeyError` because `msg` is absent),
the handler on lines 47-48 catches it, but the local `query_data` has
never been bound, so the `if query_data:` test on line 49 raises
`UnboundLocalError`.  No handler inside `process_slow_log` catches it, so
the whole run aborts: the valid slow-query line that follows is never
processed, nothing is persisted and no report is produced (the generic
handler in `main` merely prints the error). -/
theorem c3_first_line_extraction_failure_aborts :
    processLines [some recNoMsg, some recA] =
      .error "UnboundLocalError: query_data referenced before assignment" := rfl

/-- C4: refuted on the code.  A single slow-query line whose `attr` lacks
`durationMillis` classifies and extracts fine, its hash is added to the
`hashes` set (lines 50-52) before the update is attempted, the update
raises and is caught, and the insert loop then persists a row for the
hash built entirely from defaults: `occurrence_count = 0`, violating the
`occurrence_count ≥ 1` invariant for persisted records. -/
theorem c4_zero_count_row_persisted :
    (processLines [some recANoDur]).toOption = some (runOk [some recANoDur]) ∧
    storeRows (runOk [some recANoDur]) =
      [{ hash := "A", durationMillis := 0, count := 0, avgDurationMillis := 0,
         ns := some "", planSummary := "", command := "" }] := by
  exact ⟨rfl, by decide⟩

/-- C5 counterexample: a record whose `attr` carries an empty-string
`queryHash` yields a Query Event (the code checks key presence, not
non-emptiness), and a record without a `msg` field raises `KeyError`
instead of yielding the "not applicable" result, refuting both the
"non-empty fingerprint" and the "absent message-type field yields not
applicable" parts of the claim. -/
theorem c5_empty_hash_and_missing_msg :
    extract_query_data recEmptyHash =
      .ok (some { hash := "", durationMillis := none, ns := none,
                  planSummary := none, command := none }) ∧
    extract_query_data recNoMsg = .error "KeyError: msg" := by
  exact ⟨rfl, rfl⟩

/-- C5 (amended): classification yields a Query Event exactly when the
`msg` field is present and equal to "Slow query" and the attributes dict
contains the `queryHash` key (even with an empty value); a present `msg`
that differs, an absent attributes dict, or an absent `queryHash` key
yield the "not applicable" result; an absent `msg` raises `KeyError`
(which the caller catches) instead of yielding "not applicable". -/
theorem c5_classification_characterization (data : Record) :
    (data.msg = none → extract_query_data data = .error "KeyError: msg") ∧
    (∀ m, data.msg = some m →
      (((data.attr.getD {}).queryHash.isSome ∧ m = "Slow query") →
        extract_query_data data =
          .ok (some { hash := (data.attr.getD {}).queryHash.getD "",
                      durationMillis := (data.attr.getD {}).durationMillis,
                      ns := (data.attr.getD {}).ns,
                      planSummary := (data.attr.getD {}).planSummary,
                      command := (data.attr.getD {}).command })) ∧
      (¬ ((data.attr.getD {}).queryHash.isSome ∧ m = "Slow query") →
        extract_query_data data = .ok none)) := by
  constructor
  · intro hm
    simp [extract_query_data, hm]
  · intro m hm
    cases hqh : (data.attr.getD {}).queryHash with
    | none =>
      constructor
      · rintro ⟨hs, -⟩
        exact absurd hs (by simp)
      · intro hn
        simp [extract_query_data, hm, hqh]
    | some hh =>
      constructor
      · rintro ⟨-, hslow⟩
        simp [extract_query_data, hm, hqh, hslow]
      · intro hn
        have hms : m ≠ "Slow query" := by
          intro he
          exact hn ⟨by simp [hqh], he⟩
        simp [extract_query_data, hm, hqh, hms]

/-- Concrete instances of the amended classification rule: a well-formed
slow-query record classifies, a record with another message type does
not, and a record without `msg` raises. -/
theorem c5_classification_characterization_witness :
    extract_query_data recA = .ok (some eventA) ∧
    extract_query_data { msg := some "other", attr := some { queryHash := some "A" } } =
      .ok none ∧
    extract_query_data recNoMsg = .error "KeyError: msg" := by
  refine ⟨?_, ?_, ?_⟩
  · exact ((c5_classification_characterization recA).2 "Slow query" rfl).1 ⟨by decide, rfl⟩
  · exact ((c5_classification_characterization
      { msg := some "other", attr := some { queryHash := some "A" } }).2 "other" rfl).2
      (by decide)
  · exact (c5_classification_characterization recNoMsg).1 rfl

/-- C6: at the end of every successful ingestion run — hence, since the
lines are universally quantified, after every prefix of the input and so
after every applied update — every fingerprint with a stored count has a
stored total and a stored mean, and the mean equals total/count when the
count is positive and 0 otherwise (the guard on line 34 differs only for
`total = 0`, where the quotient is 0 as well, so the stored mean never
drifts from the claimed quotient). -/
theorem c6_mean_consistent (lines : List (Option Record)) (st : LoopState)
    (h : processLines lines = .ok st) : AvgConsistent st.result := by
  have hbase : AvgConsistent ([] : PyDict) := by
    intro f cv hcv
    exact absurd hcv (by simp [pget])
  exact processLines_inv AvgConsistent avgConsistent_update lines {} st h hbase

/-- The mean invariant at a concrete run. -/
theorem c6_mean_consistent_witness : AvgConsistent (runOk [some recA]).result :=
  c6_mean_consistent [some recA] (runOk [some recA]) rfl

/-- C7: once the `ns_` or `command_` entry for a fingerprint is set, no
sequence of subsequent update attempts changes it, whatever namespace or
command values the later events carry; and a successful update sets a
still-unset command from the event's first truthy (non-empty) command,
which is therefore the value retained. -/
theorem c7_first_seen_wins (result : PyDict) (f : String) (v w : Value)
    (qs : List QueryData) :
    (pget result ("ns_" ++ f) = some v →
      pget (List.foldl tryUpdate result qs) ("ns_" ++ f) = some v) ∧
    (pget result ("command_" ++ f) = some w →
      pget (List.foldl tryUpdate result qs) ("command_" ++ f) = some w) ∧
    (∀ (q : QueryData) (r' : PyDict) (c : String),
      create_or_update_result result q = .ok r' → q.command = some c → c ≠ "" →
      pget result ("command_" ++ q.hash) = none →
      pget r' ("command_" ++ q.hash) = some (.vStr c)) := by
  have hns : ∀ (l : List QueryData) (d : PyDict), pget d ("ns_" ++ f) = some v →
      pget (List.foldl tryUpdate d l) ("ns_" ++ f) = some v := by
    intro l
    induction l with
    | nil =>
      intro d h
      simpa using h
    | cons q l ih =>
      intro d h
      rw [List.foldl_cons]
      exact ih _ (ns_preserved d q f v h)
  have hcm : ∀ (l : List QueryData) (d : PyDict), pget d ("command_" ++ f) = some w →
      pget (List.foldl tryUpdate d l) ("command_" ++ f) = some w := by
    intro l
    induction l with
    | nil =>
      intro d h
      simpa using h
    | cons q l ih =>
      intro d h
      rw [List.foldl_cons]
      exact ih _ (cmd_preserved d q f w h)
  exact ⟨hns qs result, hcm qs result,
    fun q r' c hok hc hne hun => cmd_first_nonempty result q r' c hok hc hne hun⟩

/-- First-seen-wins at concrete inputs: set ns/command survive a later
event with different values, and the first non-empty command is stored. -/
theorem c7_first_seen_wins_witness :
    pget (List.foldl tryUpdate
        (pset (pset [] ("ns_" ++ "A") (Value.vStr "db.c")) ("command_" ++ "A") (Value.vStr "find"))
        [eventAOther]) ("ns_" ++ "A") = some (Value.vStr "db.c") ∧
    pget (List.foldl tryUpdate
        (pset (pset [] ("ns_" ++ "A") (Value.vStr "db.c")) ("command_" ++ "A") (Value.vStr "find"))
        [eventAOther]) ("command_" ++ "A") = some (Value.vStr "find") ∧
    pget (tryUpdate [] eventA) ("command_" ++ "A") = some (Value.vStr "find db") := by
  refine ⟨?_, ?_, ?_⟩
  · exact (c7_first_seen_wins _ "A" (Value.vStr "db.c") (Value.vStr "find") [eventAOther]).1
      (by decide)
  · exact (c7_first_seen_wins _ "A" (Value.vStr "db.c") (Value.vStr "find") [eventAOther]).2.1
      (by decide)
  · exact (c7_first_seen_wins [] "A" (Value.vStr "db.c") (Value.vStr "find") []).2.2 eventA
      (tryUpdate [] eventA) "find db" rfl rfl (by decide) rfl

/-- C8: for any stored rows and any report parameters, the report rows
are pairwise (hence adjacently) descending on the chosen sort key, and no
report row has a count below the configured minimum. -/
theorem c8_report_sorted_and_filtered (rows : List Row) (limit char_limit : Nat)
    (count_min : Int) (collscan : Bool) (sort : SortKey) :
    List.Chain' (fun a b => sortKeyVal sort b ≤ sortKeyVal sort a)
      (selectReport rows limit char_limit count_min collscan sort) ∧
    ∀ r ∈ selectReport rows limit char_limit count_min collscan sort,
      count_min ≤ r.count := by
  constructor
  · apply List.Pairwise.chain'
    simp only [selectReport]
    refine List.Pairwise.map _ (fun a b h => ?_)
      ((pairwise_sortDescBy (sortKeyVal sort) _).sublist (List.take_sublist _ _))
    simpa only [sortKeyVal_trunc] using h
  · intro r hr
    obtain ⟨r₀, -, hpass, hcnt⟩ := selectReport_mem rows limit char_limit count_min
      collscan sort r hr
    simp only [rowPasses, Bool.and_eq_true, decide_eq_true_eq] at hpass
    rw [hcnt]
    exact hpass.1

/-- The report properties at a concrete instance: two rows sorted by mean
duration descending with minimum count 1. -/
theorem c8_report_sorted_and_filtered_witness :
    List.Chain' (fun a b =>
        sortKeyVal SortKey.avgDurationMillis b ≤ sortKeyVal SortKey.avgDurationMillis a)
      (selectReport [⟨"B", 50, 1, 50, some "db", "p", "c"⟩, ⟨"A", 400, 2, 200, none, "p2", "c2"⟩]
        10 100 1 false SortKey.avgDurationMillis) ∧
    (1 : Int) ≤ (⟨"A", 400, 2, 200, none, "p2", "c2"⟩ : Row).count := by
  constructor
  · exact (c8_report_sorted_and_filtered
      [⟨"B", 50, 1, 50, some "db", "p", "c"⟩, ⟨"A", 400, 2, 200, none, "p2", "c2"⟩]
      10 100 1 false SortKey.avgDurationMillis).1
  · exact (c8_report_sorted_and_filtered
      [⟨"B", 50, 1, 50, some "db", "p", "c"⟩, ⟨"A", 400, 2, 200, none, "p2", "c2"⟩]
      10 100 1 false SortKey.avgDurationMillis).2
      ⟨"A", 400, 2, 200, none, "p2", "c2"⟩ (by decide)

/-- C9 counterexample: the first Query Event for fingerprint "A" carries
an absent namespace (and an absent duration), its update raises and sets
nothing, and the second event's namespace is the one permanently
retained — so the namespace is not "permanently set to the absent value"
by the first Query Event. -/
theorem c9_failed_first_update_namespace_filled_later :
    extract_query_data recANoDur = .ok (some eventANoDur) ∧
    eventANoDur.ns = none ∧
    (processLines [some recANoDur, some recAWithNs]).toOption =
      some (runOk [some recANoDur, some recAWithNs]) ∧
    pget (runOk [some recANoDur, some recAWithNs]).result ("ns_" ++ "A") =
      some (Value.vStr "db.coll") := by
  exact ⟨rfl, rfl, rfl, rfl⟩

/-- C9 (amended): the first successfully applied update for a fingerprint
permanently sets the namespace entry, even to the absent placeholder
(`None`), and once set it is never changed; but an event whose update
raises (for example one with an absent duration) sets nothing at all, so
a later event can still fill the namespace.  Command differs: a falsy
(absent or empty) command leaves the field unset, and the first truthy
command is the one stored. -/
theorem c9_namespace_first_successful_update :
    (∀ (result : PyDict) (q : QueryData) (r' : PyDict),
        pget result ("ns_" ++ q.hash) = none →
        create_or_update_result result q = .ok r' →
        pget r' ("ns_" ++ q.hash) = some (optStrVal q.ns)) ∧
    (∀ (result : PyDict) (q : QueryData) (f : String) (v : Value),
        pget result ("ns_" ++ f) = some v →
        pget (tryUpdate result q) ("ns_" ++ f) = some v) ∧
    (∀ (result : PyDict) (q : QueryData),
        q.durationMillis = none → tryUpdate result q = result) ∧
    (∀ (result : PyDict) (q : QueryData) (r' : PyDict),
        pyTruthyStr q.command = false →
        pget result ("command_" ++ q.hash) = none →
        create_or_update_result result q = .ok r' →
        pget r' ("command_" ++ q.hash) = none) ∧
    (∀ (result : PyDict) (q : QueryData) (r' : PyDict) (c : String),
        q.command = some c → c ≠ "" →
        pget result ("command_" ++ q.hash) = none →
        create_or_update_result result q = .ok r' →
        pget r' ("command_" ++ q.hash) = some (.vStr c)) :=
  ⟨fun result q r' h hok => ns_set_on_success result q r' hok h,
   fun result q f v h => ns_preserved result q f v h,
   tryUpdate_of_error,
   fun result q r' hc hun hok => cmd_falsy_not_set result q r' hok hc hun,
   fun result q r' c hc hne hun hok => cmd_first_nonempty result q r' c hok hc hne hun⟩

/-- The amended C9 at concrete inputs: a successful update with an absent
namespace stores the `None` placeholder, and a failed update changes
nothing. -/
theorem c9_namespace_first_successful_update_witness :
    pget (tryUpdate [] eventASimple) ("ns_" ++ "A") = some Value.vNone ∧
    tryUpdate [] eventANoDur = [] := by
  constructor
  · exact c9_namespace_first_successful_update.1 [] eventASimple
      (tryUpdate [] eventASimple) rfl rfl
  · exact c9_namespace_first_successful_update.2.2.1 [] eventANoDur rfl

/-- C10 (amended): the stored `planSummary` column is the Python `str` of
the whole plan-summary list (brackets, quotes and `None` placeholders
included), and with the plan-shape filter active a row passes the WHERE
clause exactly when its count clears the minimum and the substring
"COLLSCAN" occurs, ASCII-case-insensitively (SQLite `LIKE` default), in
that serialized text. -/
theorem c10_filter_on_serialized_plan_list :
    (∀ (result : PyDict) (f : String) (l : List (Option String)),
        pget result ("planSummary_" ++ f) = some (.vList l) →
        (mkRow result f).planSummary = pyStrList l) ∧
    (∀ (rows : List Row) (count_min : Int) (r : Row),
        r ∈ List.filter (rowPasses count_min true) rows ↔
          r ∈ rows ∧ count_min ≤ r.count ∧ likeContains r.planSummary "COLLSCAN" = true) := by
  constructor
  · intro result f l h
    simp [mkRow, h]
  · intro rows count_min r
    rw [List.mem_filter]
    simp only [rowPasses, Bool.not_true, Bool.false_or, Bool.and_eq_true, decide_eq_true_eq]

/-- The amended C10 at concrete inputs: a row built from a stored plan
list carries its serialization, and a row whose serialized plan text
contains "COLLSCAN" passes the filter. -/
theorem c10_filter_on_serialized_plan_list_witness :
    (mkRow (pset [] ("planSummary_" ++ "A") (Value.vList [some "COLLSCAN", none])) "A").planSummary =
      pyStrList [some "COLLSCAN", none] ∧
    (⟨"A", 0, 1, 0, none, pyStrList [some "COLLSCAN"], ""⟩ : Row) ∈
      List.filter (rowPasses 1 true) [⟨"A", 0, 1, 0, none, pyStrList [some "COLLSCAN"], ""⟩] := by
  constructor
  · exact c10_filter_on_serialized_plan_list.1
      (pset [] ("planSummary_" ++ "A") (Value.vList [some "COLLSCAN", none])) "A"
      [some "COLLSCAN", none] (by decide)
  · exact (c10_filter_on_serialized_plan_list.2
      [⟨"A", 0, 1, 0, none, pyStrList [some "COLLSCAN"], ""⟩] 1
      ⟨"A", 0, 1, 0, none, pyStrList [some "COLLSCAN"], ""⟩).mpr
      ⟨by decide, by decide, by decide⟩

/-- C10 counterexample: a row whose serialized plan text contains
"collScan" (different letter case) is kept by the `--collscan` report
filter although the exact substring "COLLSCAN" does not occur anywhere in
the serialized text, because SQLite `LIKE` is ASCII-case-insensitive by
default. -/
theorem c10_case_insensitive_like_refutes_exact_occurrence :
    (⟨"A", 0, 1, 0, none, pyStrList [some "collScan"], ""⟩ : Row) ∈
      selectReport [⟨"A", 0, 1, 0, none, pyStrList [some "collScan"], ""⟩] 10 100 1 true
        SortKey.avgDurationMillis ∧
    substringOccurs "COLLSCAN" (pyStrList [some "collScan"]) = false := by
  exact ⟨by decide, by decide⟩
